import Mathlib

/-!
Shallow embedding of `src/src/python_extensions/wasisocket/wasisocket.py`.

The module wraps a host-provided low-level C extension `_wasisocket`.  The
extension itself is not part of the repository, so its primitives
(`sock_open`, `sock_resolve`, `sock_connect`, `sock_send`, `sock_recv`,
`sock_close`) are modelled as oracle inputs: each operation of the adapter
receives the result the provider would return (a value, or an `OSError`),
and additionally returns the list of provider calls it performed, so that
"the provider was / was not invoked" is a provable statement.

Python exceptions are modelled by an `Except` result.  `bytes` values are
`List Nat`.  The derived socket state of the specification is:
`Closed` iff `_fd = none`; otherwise `Connected` iff `_connected = true`,
else `Open`.
-/

namespace Wasisocket

/-- An `OSError` raised by a provider primitive (opaque payload). -/
abbrev OSErr := Nat

/-- A resolved address as returned by `sock_resolve`:
`(family, port, addr_bytes)`. -/
abbrev Addr := Nat × Nat × List Nat

/-- The distinct exception message strings of `wasisocket.py`. -/
inductive ErrMsg
  | socketIsClosed
  | socketIsAlreadyConnected
  | socketIsNotConnected
  | cannotResolveHostname
  | connectionFailed
  | sendFailed
  | receiveFailed
  | connectionClosedDuringSend
  deriving DecidableEq, Repr

/-- A Python exception escaping an adapter operation.
`socketError` is the module's `error` class (alias `SocketError`), with the
`from e` cause when it wraps a provider failure; `gaierror` is the
resolution-failure class (the spec's `AddressResolutionError`); `osError`
is a raw provider `OSError` propagating unwrapped. -/
inductive SockExc
  | socketError (msg : ErrMsg) (cause : Option OSErr)
  | gaierror (msg : ErrMsg)
  | osError (e : OSErr)
  deriving DecidableEq, Repr

/-- A call made to a `_wasisocket` provider primitive, with its arguments. -/
inductive PCall
  | popen (family : Nat) (socktype : Nat)
  | resolve (host : String) (port : Nat)
  | pconnect (fd : Nat) (family : Nat) (port : Nat) (addr : List Nat)
  | psend (fd : Nat) (chunk : List Nat)
  | precv (fd : Nat) (bufsize : Nat)
  | pclose (fd : Nat)
  deriving DecidableEq, Repr

/-- Address-family / socket-type constants re-exported from the host
extension.  Their numeric values live in the host-provided `_wasisocket`
extension (not in the repository); the values chosen here are arbitrary
and no claim depends on them. -/
def AF_INET : Nat := 1

/-- See `AF_INET`. -/
def SOCK_STREAM : Nat := 1

/-- The mutable state of a `Socket` instance: the constructor fields
`family` and `socktype`, the optional descriptor `_fd`, and the
`_connected` flag. -/
structure Socket where
  family : Nat
  socktype : Nat
  _fd : Option Nat
  _connected : Bool
  deriving DecidableEq, Repr

/-- Embedding of `Socket.connect(self, (hostname, port))`.  `resolveRes` is what
`_wasisocket.sock_resolve` returns (or raises); `connectRes` is what
`_wasisocket.sock_connect` returns (or raises).  Returns the new state,
the Python result, and the provider calls made. -/
def Socket.connect (s : Socket) (hostname : String) (port : Nat)
    (resolveRes : Except OSErr (List Addr)) (connectRes : Except OSErr Unit) :
    Socket × Except SockExc Unit × List PCall :=
  match s._fd with
  | none => (s, Except.error (SockExc.socketError ErrMsg.socketIsClosed none), [])
  | some fd =>
    if s._connected then
      (s, Except.error (SockExc.socketError ErrMsg.socketIsAlreadyConnected none), [])
    else
      match resolveRes with
      | Except.error e => (s, Except.error (SockExc.osError e), [PCall.resolve hostname port])
      | Except.ok addrs =>
        match addrs with
        | [] => (s, Except.error (SockExc.gaierror ErrMsg.cannotResolveHostname),
                 [PCall.resolve hostname port])
        | (family, resolved_port, addr_bytes) :: _ =>
          match connectRes with
          | Except.ok _ =>
              ({ s with _connected := true }, Except.ok (),
               [PCall.resolve hostname port,
                PCall.pconnect fd family resolved_port addr_bytes])
          | Except.error e =>
              (s, Except.error (SockExc.socketError ErrMsg.connectionFailed (some e)),
               [PCall.resolve hostname port,
                PCall.pconnect fd family resolved_port addr_bytes])

/-- Embedding of `Socket.send(self, data)`.  `sendRes` is what `_wasisocket.sock_send`
returns (or raises).  The `isinstance` type check of the source cannot
fail here because `data` is already a byte list by type. -/
def Socket.send (s : Socket) (data : List Nat) (sendRes : Except OSErr Nat) :
    Socket × Except SockExc Nat × List PCall :=
  match s._fd with
  | none => (s, Except.error (SockExc.socketError ErrMsg.socketIsClosed none), [])
  | some fd =>
    if !s._connected then
      (s, Except.error (SockExc.socketError ErrMsg.socketIsNotConnected none), [])
    else
      match sendRes with
      | Except.ok n => (s, Except.ok n, [PCall.psend fd data])
      | Except.error e =>
          (s, Except.error (SockExc.socketError ErrMsg.sendFailed (some e)),
           [PCall.psend fd data])

/-- Embedding of `Socket.recv(self, bufsize)`.  `recvRes` is what
`_wasisocket.sock_recv` returns (or raises). -/
def Socket.recv (s : Socket) (bufsize : Nat) (recvRes : Except OSErr (List Nat)) :
    Socket × Except SockExc (List Nat) × List PCall :=
  match s._fd with
  | none => (s, Except.error (SockExc.socketError ErrMsg.socketIsClosed none), [])
  | some fd =>
    if !s._connected then
      (s, Except.error (SockExc.socketError ErrMsg.socketIsNotConnected none), [])
    else
      match recvRes with
      | Except.ok bs => (s, Except.ok bs, [PCall.precv fd bufsize])
      | Except.error e =>
          (s, Except.error (SockExc.socketError ErrMsg.receiveFailed (some e)),
           [PCall.precv fd bufsize])

/-- Embedding of `Socket.close(self)`.  `closeRes` is what `_wasisocket.sock_close`
returns (or raises); the source swallows an `OSError` (`except OSError:
pass`) and in the `finally` block clears `_fd` and `_connected` either
way, so both branches produce the same state and `close` always returns
normally. -/
def Socket.close (s : Socket) (closeRes : Except OSErr Unit) :
    Socket × Except SockExc Unit × List PCall :=
  match s._fd with
  | none => (s, Except.ok (), [])
  | some fd =>
    match closeRes with
    | Except.ok _ =>
        ({ s with _fd := none, _connected := false }, Except.ok (), [PCall.pclose fd])
    | Except.error _ =>
        ({ s with _fd := none, _connected := false }, Except.ok (), [PCall.pclose fd])

/-- Outcome of `Socket.sendall`: normal return, a raised exception, or the
oracle ran out of planned provider results (the Python loop would call the
provider again; claims only concern runs where the oracle suffices). -/
inductive SAOut
  | ok
  | exc (e : SockExc)
  | oracleExhausted
  deriving DecidableEq, Repr

/-- The `while total_sent < data_len` loop of `Socket.sendall`.  Each
iteration calls `self.send(data[total_sent:])` with the next planned
provider result.  `Socket.send` never mutates the state, so `s` is
threaded unchanged, exactly as in the source. -/
def sendallLoop (data : List Nat) :
    Socket → Nat → List (Except OSErr Nat) → Socket × SAOut × List PCall
  | s, total_sent, results =>
    if total_sent < data.length then
      match results with
      | [] => (s, SAOut.oracleExhausted, [])
      | r :: rs =>
        match Socket.send s (data.drop total_sent) r with
        | (s1, Except.error e, tr) => (s1, SAOut.exc e, tr)
        | (s1, Except.ok sent, tr) =>
          if sent = 0 then
            (s1, SAOut.exc (SockExc.socketError ErrMsg.connectionClosedDuringSend none), tr)
          else
            let rest := sendallLoop data s1 (total_sent + sent) rs
            (rest.1, rest.2.1, tr ++ rest.2.2)
    else
      (s, SAOut.ok, [])

/-- Embedding of `Socket.sendall(self, data)`: runs the loop from `total_sent = 0`. -/
def Socket.sendall (s : Socket) (data : List Nat)
    (results : List (Except OSErr Nat)) : Socket × SAOut × List PCall :=
  sendallLoop data s 0 results

/-- Embedding of `create_connection(address)`: constructs a `Socket(AF_INET,
SOCK_STREAM)` (acquiring descriptor `fd` from `sock_open`), attempts
`connect`, and on any exception closes the socket before re-raising. -/
def create_connection (fd : Nat) (hostname : String) (port : Nat)
    (resolveRes : Except OSErr (List Addr)) (connectRes : Except OSErr Unit)
    (closeRes : Except OSErr Unit) : Except SockExc Socket × List PCall :=
  let sock : Socket := ⟨AF_INET, SOCK_STREAM, some fd, false⟩
  match Socket.connect sock hostname port resolveRes connectRes with
  | (s, Except.ok _, tr) =>
      (Except.ok s, PCall.popen AF_INET SOCK_STREAM :: tr)
  | (s, Except.error e, tr) =>
      let (_, _, tr2) := Socket.close s closeRes
      (Except.error e, PCall.popen AF_INET SOCK_STREAM :: (tr ++ tr2))

/-- The provider calls a successful `sendall` run performs when the
provider consumes `c` bytes at each step of `counts`: the `i`-th call
passes the unsent suffix `data[total_sent:]` where `total_sent` is the sum
of the first `i` counts. -/
def sendallTrace (fd : Nat) (data : List Nat) :
    Nat → List Nat → List PCall
  | _, [] => []
  | total_sent, c :: cs =>
      PCall.psend fd (data.drop total_sent) :: sendallTrace fd data (total_sent + c) cs

/-- The bytes the provider actually consumed over a trace of `psend`
calls: of each passed chunk, the first `c` bytes, where `c` is the count
the provider reported for that call. -/
def transmitted : List PCall → List Nat → List Nat
  | PCall.psend _ chunk :: tr, c :: cs => chunk.take c ++ transmitted tr cs
  | _, _ => []

/-- Runs `N` consecutive `close()` calls, one planned provider result each;
collects every call's state-after, outcome and provider calls flattened. -/
def closeN : Socket → List (Except OSErr Unit) →
    Socket × List (Except SockExc Unit) × List PCall
  | s, [] => (s, [], [])
  | s, r :: rs =>
      match Socket.close s r with
      | (s1, out, tr) =>
          match closeN s1 rs with
          | (s2, outs, tr2) => (s2, out :: outs, tr ++ tr2)

/-- The descriptors passed to the provider's `sock_close` primitive over a
trace. -/
def closeCalls (tr : List PCall) : List Nat :=
  tr.filterMap fun c =>
    match c with
    | PCall.pclose fd => some fd
    | _ => none

/-! ### Helper lemmas -/

/-- A successful `send` on a connected socket returns the provider's count
and performs exactly one `sock_send` call with the given chunk. -/
theorem send_connected_ok (fam st f : Nat) (chunk : List Nat) (n : Nat) :
    Socket.send ⟨fam, st, some f, true⟩ chunk (Except.ok n) =
      (⟨fam, st, some f, true⟩, Except.ok n, [PCall.psend f chunk]) := rfl

/-- When `total_sent` has reached the data length, the `sendall` loop
stops. -/
theorem sendallLoop_done (data : List Nat) (s : Socket) (total : Nat)
    (results : List (Except OSErr Nat)) (h : ¬ total < data.length) :
    sendallLoop data s total results = (s, SAOut.ok, []) := by
  rw [sendallLoop.eq_def]
  simp [h]

/-- One iteration of the `sendall` loop on a connected socket, when the
provider reports a nonzero count. -/
theorem sendallLoop_step (data : List Nat) (fam st f total c : Nat)
    (rs : List (Except OSErr Nat)) (hlt : total < data.length) (hc : c ≠ 0) :
    sendallLoop data ⟨fam, st, some f, true⟩ total (Except.ok c :: rs) =
      ((sendallLoop data ⟨fam, st, some f, true⟩ (total + c) rs).1,
       (sendallLoop data ⟨fam, st, some f, true⟩ (total + c) rs).2.1,
       PCall.psend f (data.drop total) ::
         (sendallLoop data ⟨fam, st, some f, true⟩ (total + c) rs).2.2) := by
  rw [sendallLoop.eq_def]
  simp [hlt, Socket.send, hc]

/-- The `sendall` loop with provider counts that are all positive and fill
the remaining length exactly: terminates normally, leaves the state
untouched, and produces the expected trace of suffix sends. -/
theorem sendallLoop_all_sent (data : List Nat) (fam st f : Nat)
    (cs : List Nat) : ∀ (total : Nat), (∀ c ∈ cs, 0 < c) →
      total + cs.sum = data.length →
      sendallLoop data ⟨fam, st, some f, true⟩ total (cs.map Except.ok) =
        (⟨fam, st, some f, true⟩, SAOut.ok, sendallTrace f data total cs) := by
  induction cs with
  | nil =>
      intro total _ hsum
      simp only [List.sum_nil, Nat.add_zero] at hsum
      rw [List.map_nil, sendallLoop_done data _ total _ (by omega)]
      rfl
  | cons c cs ih =>
      intro total hpos hsum
      have hcpos : 0 < c := hpos c (List.mem_cons_self c cs)
      simp only [List.sum_cons] at hsum
      have hlt : total < data.length := by omega
      rw [List.map_cons, sendallLoop_step data fam st f total c _ hlt (by omega)]
      rw [ih (total + c) (fun x hx => hpos x (List.mem_cons_of_mem c hx)) (by omega)]
      simp [sendallTrace]

/-- Concatenating the consumed prefixes of the suffix chunks recovers the
whole remaining data. -/
theorem transmitted_trace (f : Nat) (data : List Nat) (cs : List Nat) :
    ∀ (total : Nat), total + cs.sum = data.length →
      transmitted (sendallTrace f data total cs) cs = data.drop total := by
  induction cs with
  | nil =>
      intro total hsum
      simp only [List.sum_nil, Nat.add_zero] at hsum
      subst hsum
      simp [sendallTrace, transmitted, List.drop_length]
  | cons c cs ih =>
      intro total hsum
      simp only [List.sum_cons] at hsum
      rw [sendallTrace, transmitted, ih (total + c) (by omega)]
      exact List.drop_take_append_drop data total c

/-- The `sendall` loop on a connected socket, when the provider counts are
positive but a zero count arrives before the data is exhausted: the loop
raises and never touches the remaining oracle entries. -/
theorem sendallLoop_zero_result (data : List Nat) (fam st f : Nat)
    (cs : List Nat) : ∀ (total : Nat) (rest : List (Except OSErr Nat)),
      (∀ c ∈ cs, 0 < c) → total + cs.sum < data.length →
      sendallLoop data ⟨fam, st, some f, true⟩ total
          (cs.map Except.ok ++ Except.ok 0 :: rest) =
        (⟨fam, st, some f, true⟩,
         SAOut.exc (SockExc.socketError ErrMsg.connectionClosedDuringSend none),
         sendallTrace f data total cs ++
           [PCall.psend f (data.drop (total + cs.sum))]) := by
  induction cs with
  | nil =>
      intro total rest _ hlt
      simp only [List.sum_nil, Nat.add_zero] at hlt ⊢
      rw [List.map_nil, List.nil_append, sendallLoop.eq_def]
      simp [hlt, Socket.send, sendallTrace]
  | cons c cs ih =>
      intro total rest hpos hlt
      have hcpos : 0 < c := hpos c (List.mem_cons_self c cs)
      simp only [List.sum_cons] at hlt
      have hlt2 : total < data.length := by omega
      rw [List.map_cons, List.cons_append,
        sendallLoop_step data fam st f total c _ hlt2 (by omega)]
      rw [ih (total + c) rest (fun x hx => hpos x (List.mem_cons_of_mem c hx))
        (by omega)]
      simp [sendallTrace, Nat.add_assoc]

/-- Repeated `close` on a socket whose descriptor is already absent is a
no-op: the state is returned unchanged, every call returns normally, and
the provider is never invoked. -/
theorem closeN_on_closed (rs : List (Except OSErr Unit)) :
    ∀ (s : Socket), s._fd = none →
      closeN s rs = (s, List.replicate rs.length (Except.ok ()), []) := by
  induction rs with
  | nil => intro s _; rfl
  | cons r rs ih =>
      intro s h
      rw [closeN]
      simp [Socket.close, h, ih s h, List.replicate_succ]

/-- Running `sendall` on a socket whose descriptor is absent never changes the
state and never reaches the provider: with data present the very first
`send` raises, and with no data the loop body never runs. -/
theorem sendall_closed (fam st : Nat) (c : Bool) (data : List Nat)
    (results : List (Except OSErr Nat)) :
    (Socket.sendall ⟨fam, st, none, c⟩ data results).1 = ⟨fam, st, none, c⟩ ∧
    (Socket.sendall ⟨fam, st, none, c⟩ data results).2.2 = [] := by
  cases data with
  | nil =>
      have h := sendallLoop_done [] (⟨fam, st, none, c⟩ : Socket) 0 results (by simp)
      exact ⟨congrArg Prod.fst h, congrArg (fun p => p.2.2) h⟩
  | cons d ds =>
      cases results with
      | nil =>
          have h : sendallLoop (d :: ds) (⟨fam, st, none, c⟩ : Socket) 0 [] =
              ((⟨fam, st, none, c⟩ : Socket), SAOut.oracleExhausted, ([] : List PCall)) := by
            rw [sendallLoop.eq_def]
            simp
          exact ⟨congrArg Prod.fst h, congrArg (fun p => p.2.2) h⟩
      | cons r rs =>
          have h : sendallLoop (d :: ds) (⟨fam, st, none, c⟩ : Socket) 0 (r :: rs) =
              ((⟨fam, st, none, c⟩ : Socket),
               SAOut.exc (SockExc.socketError ErrMsg.socketIsClosed none),
               ([] : List PCall)) := by
            rw [sendallLoop.eq_def]
            simp [Socket.send]
          exact ⟨congrArg Prod.fst h, congrArg (fun p => p.2.2) h⟩

/-! ### Claim theorems -/

/-- C1: For every connected Socket and every byte sequence `data`, if each
underlying provider send call returns a positive count and the returned
counts sum to `len(data)`, then `sendall` terminates normally (leaving the
state unchanged) and passes every byte of `data` to the provider exactly
once, in order: the i-th call sends the unsent suffix `data[total_sent:]`
(the trace equals `sendallTrace`), and the prefixes the provider consumed
concatenate back to exactly `data`. -/
theorem sendall_transmits_all_in_order (fam st f : Nat) (data cs : List Nat)
    (hpos : ∀ c ∈ cs, 0 < c) (hsum : cs.sum = data.length) :
    Socket.sendall ⟨fam, st, some f, true⟩ data (cs.map Except.ok) =
      (⟨fam, st, some f, true⟩, SAOut.ok, sendallTrace f data 0 cs) ∧
    transmitted (sendallTrace f data 0 cs) cs = data := by
  refine ⟨sendallLoop_all_sent data fam st f cs 0 hpos (by omega), ?_⟩
  have h := transmitted_trace f data cs 0 (by omega)
  simpa using h

/-- Witness for C1 at a concrete run: four bytes sent in two chunks of
two. -/
theorem sendall_transmits_all_in_order_witness :
    Socket.sendall ⟨1, 1, some 3, true⟩ [10, 20, 30, 40] ([2, 2].map Except.ok) =
      (⟨1, 1, some 3, true⟩, SAOut.ok, sendallTrace 3 [10, 20, 30, 40] 0 [2, 2]) ∧
    transmitted (sendallTrace 3 [10, 20, 30, 40] 0 [2, 2]) [2, 2] =
      [10, 20, 30, 40] :=
  sendall_transmits_all_in_order 1 1 3 [10, 20, 30, 40] [2, 2] (by decide) (by decide)

/-- C2: on a connected Socket, if after some positive partial sends an
underlying `send` call returns 0 while unsent bytes remain, `sendall`
raises `SocketError` ("Connection closed during send") and performs no
further send calls: the trace stops at the zero-returning call and none of
the remaining oracle entries is consumed. -/
theorem sendall_zero_raises (fam st f : Nat) (data cs : List Nat)
    (rest : List (Except OSErr Nat))
    (hpos : ∀ c ∈ cs, 0 < c) (hlt : cs.sum < data.length) :
    Socket.sendall ⟨fam, st, some f, true⟩ data
        (cs.map Except.ok ++ Except.ok 0 :: rest) =
      (⟨fam, st, some f, true⟩,
       SAOut.exc (SockExc.socketError ErrMsg.connectionClosedDuringSend none),
       sendallTrace f data 0 cs ++ [PCall.psend f (data.drop cs.sum)]) := by
  have h := sendallLoop_zero_result data fam st f cs 0 rest hpos (by omega)
  simpa using h

/-- Witness for C2 at a concrete run: two bytes sent, then a zero count
with two bytes remaining and one unused oracle entry. -/
theorem sendall_zero_raises_witness :
    Socket.sendall ⟨1, 1, some 3, true⟩ [10, 20, 30, 40]
        ([2].map Except.ok ++ Except.ok 0 :: [Except.ok 7]) =
      (⟨1, 1, some 3, true⟩,
       SAOut.exc (SockExc.socketError ErrMsg.connectionClosedDuringSend none),
       sendallTrace 3 [10, 20, 30, 40] 0 [2] ++
         [PCall.psend 3 ([10, 20, 30, 40].drop [2].sum)]) :=
  sendall_zero_raises 1 1 3 [10, 20, 30, 40] [2] [Except.ok 7] (by decide) (by decide)

/-- C3: `close()` is idempotent and never raises: calling it `N = rs.length
+ 1 ≥ 1` times produces the same final state and the same provider trace
as calling it once, every call returns normally (`Except.ok`, any
provider error during release being swallowed), afterwards the descriptor
is absent (state `Closed`), and the provider close primitive is invoked
exactly once per acquired descriptor (once if a descriptor was held,
never otherwise). -/
theorem close_idempotent (s : Socket) (r : Except OSErr Unit)
    (rs : List (Except OSErr Unit)) :
    closeN s (r :: rs) =
      ((Socket.close s r).1, List.replicate (rs.length + 1) (Except.ok ()),
       (Socket.close s r).2.2) ∧
    (Socket.close s r).1._fd = none ∧
    closeCalls (Socket.close s r).2.2 = s._fd.toList := by
  obtain ⟨fam, st, fd, conn⟩ := s
  cases fd with
  | none =>
      refine ⟨?_, rfl, rfl⟩
      rw [closeN]
      simp [Socket.close, closeN_on_closed rs ⟨fam, st, none, conn⟩ rfl,
        List.replicate_succ]
  | some fd =>
      cases r with
      | ok u =>
          refine ⟨?_, rfl, rfl⟩
          rw [closeN]
          simp [Socket.close, closeN_on_closed rs ⟨fam, st, none, false⟩ rfl,
            List.replicate_succ]
      | error e =>
          refine ⟨?_, rfl, rfl⟩
          rw [closeN]
          simp [Socket.close, closeN_on_closed rs ⟨fam, st, none, false⟩ rfl,
            List.replicate_succ]

/-- C4: the `Closed` state is absorbing.  On a socket whose descriptor is
absent (`_fd = none`, the code's derived `Closed` state, whatever the
`_connected` flag), every operation — `connect`, `send`, `sendall`,
`recv`, `close` — returns the state completely unchanged (so the
descriptor stays absent and the state never becomes `Open` or
`Connected`) and performs no provider call (so no descriptor is ever
re-acquired). -/
theorem closed_state_absorbing (fam st : Nat) (c : Bool) (hostname : String)
    (port : Nat) (rres : Except OSErr (List Addr)) (cres : Except OSErr Unit)
    (data : List Nat) (sres : Except OSErr Nat)
    (results : List (Except OSErr Nat))
    (bufsize : Nat) (rcres : Except OSErr (List Nat))
    (clres : Except OSErr Unit) :
    ((Socket.connect ⟨fam, st, none, c⟩ hostname port rres cres).1 =
        ⟨fam, st, none, c⟩ ∧
      (Socket.connect ⟨fam, st, none, c⟩ hostname port rres cres).2.2 = []) ∧
    ((Socket.send ⟨fam, st, none, c⟩ data sres).1 = ⟨fam, st, none, c⟩ ∧
      (Socket.send ⟨fam, st, none, c⟩ data sres).2.2 = []) ∧
    ((Socket.sendall ⟨fam, st, none, c⟩ data results).1 = ⟨fam, st, none, c⟩ ∧
      (Socket.sendall ⟨fam, st, none, c⟩ data results).2.2 = []) ∧
    ((Socket.recv ⟨fam, st, none, c⟩ bufsize rcres).1 = ⟨fam, st, none, c⟩ ∧
      (Socket.recv ⟨fam, st, none, c⟩ bufsize rcres).2.2 = []) ∧
    ((Socket.close ⟨fam, st, none, c⟩ clres).1 = ⟨fam, st, none, c⟩ ∧
      (Socket.close ⟨fam, st, none, c⟩ clres).2.2 = []) :=
  ⟨⟨rfl, rfl⟩, ⟨rfl, rfl⟩, sendall_closed fam st c data results,
   ⟨rfl, rfl⟩, ⟨rfl, rfl⟩⟩

/-- C5: `connect` on a socket already in `Connected` state raises
`SocketError` ("Socket is already connected"), performs no provider call
at all (neither the resolver nor the connect primitive), and leaves state
and descriptor unchanged — for any planned resolver and connect
results. -/
theorem connect_already_connected (fam st f : Nat) (hostname : String)
    (port : Nat) (rres : Except OSErr (List Addr)) (cres : Except OSErr Unit) :
    Socket.connect ⟨fam, st, some f, true⟩ hostname port rres cres =
      (⟨fam, st, some f, true⟩,
       Except.error (SockExc.socketError ErrMsg.socketIsAlreadyConnected none),
       []) := rfl

/-- C6: `send` and `recv` on a socket in `Closed` state (descriptor
absent) or `Open` state (descriptor present, never connected) raise
`SocketError` ("Socket is closed" / "Socket is not connected"), perform no
provider call, and leave state and descriptor unchanged. -/
theorem send_recv_require_connected (fam st f : Nat) (c : Bool)
    (data : List Nat) (sres : Except OSErr Nat)
    (bufsize : Nat) (rcres : Except OSErr (List Nat)) :
    Socket.send ⟨fam, st, none, c⟩ data sres =
      (⟨fam, st, none, c⟩,
       Except.error (SockExc.socketError ErrMsg.socketIsClosed none), []) ∧
    Socket.send ⟨fam, st, some f, false⟩ data sres =
      (⟨fam, st, some f, false⟩,
       Except.error (SockExc.socketError ErrMsg.socketIsNotConnected none), []) ∧
    Socket.recv ⟨fam, st, none, c⟩ bufsize rcres =
      (⟨fam, st, none, c⟩,
       Except.error (SockExc.socketError ErrMsg.socketIsClosed none), []) ∧
    Socket.recv ⟨fam, st, some f, false⟩ bufsize rcres =
      (⟨fam, st, some f, false⟩,
       Except.error (SockExc.socketError ErrMsg.socketIsNotConnected none), []) :=
  ⟨rfl, rfl, rfl, rfl⟩

/-- C7: `connect` on an `Open` socket whose resolver returns an empty
candidate list raises the resolution error (`gaierror`, the spec's
`AddressResolutionError`), invokes only the resolver (never the connect
primitive), and leaves the socket in `Open` state: descriptor still
present, not connected. -/
theorem connect_no_addresses (fam st f : Nat) (hostname : String)
    (port : Nat) (cres : Except OSErr Unit) :
    Socket.connect ⟨fam, st, some f, false⟩ hostname port (Except.ok []) cres =
      (⟨fam, st, some f, false⟩,
       Except.error (SockExc.gaierror ErrMsg.cannotResolveHostname),
       [PCall.resolve hostname port]) := rfl

/-- C8: `connect` on an `Open` socket with one or more resolver candidates
invokes the connect primitive with exactly the first candidate and no
other, whatever the tail of the candidate list and whatever the outcome;
and if that single attempt fails with provider error `e`, `connect` raises
`SocketError` ("Connection failed") carrying `e` as its cause, attempts no
further candidate, and leaves the socket in `Open` state. -/
theorem connect_first_candidate_only (fam st f : Nat) (hostname : String)
    (port : Nat) (af ap : Nat) (ab : List Nat) (rest : List Addr) (e : OSErr) :
    (∀ cres : Except OSErr Unit,
      (Socket.connect ⟨fam, st, some f, false⟩ hostname port
          (Except.ok ((af, ap, ab) :: rest)) cres).2.2 =
        [PCall.resolve hostname port, PCall.pconnect f af ap ab]) ∧
    Socket.connect ⟨fam, st, some f, false⟩ hostname port
        (Except.ok ((af, ap, ab) :: rest)) (Except.error e) =
      (⟨fam, st, some f, false⟩,
       Except.error (SockExc.socketError ErrMsg.connectionFailed (some e)),
       [PCall.resolve hostname port, PCall.pconnect f af ap ab]) := by
  refine ⟨fun cres => ?_, rfl⟩
  cases cres <;> rfl

/-- C9: `create_connection` never leaks the descriptor acquired at
construction.  For every oracle: either the connect step succeeds and the
result is a `Connected` socket holding the acquired descriptor with the
provider close primitive never invoked, or the connect step fails
(resolution failure or provider connection failure), the error propagates,
and the provider close primitive was invoked exactly once, on exactly the
acquired descriptor. -/
theorem create_connection_no_leak (f : Nat) (hostname : String) (port : Nat)
    (rres : Except OSErr (List Addr)) (cres clres : Except OSErr Unit) :
    ((create_connection f hostname port rres cres clres).1 =
        Except.ok ⟨AF_INET, SOCK_STREAM, some f, true⟩ ∧
      closeCalls (create_connection f hostname port rres cres clres).2 = []) ∨
    ((∃ e, (create_connection f hostname port rres cres clres).1 =
        Except.error e) ∧
      closeCalls (create_connection f hostname port rres cres clres).2 = [f]) := by
  rcases rres with e | addrs
  · cases clres <;> exact Or.inr ⟨⟨SockExc.osError e, rfl⟩, rfl⟩
  · rcases addrs with _ | ⟨⟨af, ap, ab⟩, tail⟩
    · cases clres <;>
        exact Or.inr ⟨⟨SockExc.gaierror ErrMsg.cannotResolveHostname, rfl⟩, rfl⟩
    · rcases cres with e | u
      · cases clres <;> exact Or.inr
          ⟨⟨SockExc.socketError ErrMsg.connectionFailed (some e), rfl⟩, rfl⟩
      · exact Or.inl ⟨rfl, rfl⟩

/-- C10: `sendall` with an empty byte sequence returns normally on every
socket state — including `Open` and `Closed`, where `send` itself would
raise — performing no state check that could raise and no provider call:
the loop guard `total_sent < len(data)` fails immediately, before the
first `send`. -/
theorem sendall_empty_no_check (s : Socket) (results : List (Except OSErr Nat)) :
    Socket.sendall s [] results = (s, SAOut.ok, []) :=
  sendallLoop_done [] s 0 results (by simp)

end Wasisocket
